import Mathlib

/-!
Verification of the NoctisApp real-time delivery layer (connection registry,
pub/sub channel naming, inbound event router, rate limiter, token gate and
call-signaling endpoints), shallowly embedded from
`backend/app/routes/websockets.py`, `backend/app/routes/calls.py`,
`backend/app/services/auth.py` and `backend/app/models/message.py`.
-/

namespace Noctis

/-! ## Association-list helpers

Redis string keys and python dictionaries are embedded as association lists
with first-match lookup and replace-or-append update. -/

def alGet {α : Type} : List (String × α) → String → Option α
  | [], _ => none
  | p :: rest, k => if p.1 = k then some p.2 else alGet rest k

def alSet {α : Type} : List (String × α) → String → α → List (String × α)
  | [], k, v => [(k, v)]
  | p :: rest, k, v => if p.1 = k then (k, v) :: rest else p :: alSet rest k v

theorem alGet_alSet {α : Type} (l : List (String × α)) (k : String) (v : α) :
    alGet (alSet l k v) k = some v := by
  induction l with
  | nil => simp [alGet, alSet]
  | cons p rest ih =>
    by_cases h : p.1 = k <;> simp [alGet, alSet, h, ih]

theorem alGet_alSet_ne {α : Type} (l : List (String × α)) (k k' : String) (v : α)
    (h : k' ≠ k) : alGet (alSet l k v) k' = alGet l k' := by
  induction l with
  | nil => simp [alGet, alSet, Ne.symm h]
  | cons p rest ih =>
    by_cases hp : p.1 = k
    · subst hp
      simp [alGet, alSet, Ne.symm h]
    · by_cases hk' : p.1 = k' <;> simp [alGet, alSet, hp, hk', h, ih]

theorem alSet_alSet {α : Type} (l : List (String × α)) (k : String) (v v' : α) :
    alSet (alSet l k v) k v' = alSet l k v' := by
  induction l with
  | nil => simp [alSet]
  | cons p rest ih =>
    by_cases h : p.1 = k <;> simp [alSet, h, ih]

/-! ## JSON values

Inbound socket frames are parsed JSON objects and outbound events are python
dicts serialized with `json.dumps(..., separators=(",", ":"))`; we embed JSON
values directly (numbers restricted to integers, which is all the router
produces or inspects). -/

inductive JVal : Type where
  | null : JVal
  | b : Bool → JVal
  | n : Int → JVal
  | s : String → JVal
  | arr : List JVal → JVal
  | obj : List (String × JVal) → JVal

abbrev JObj := List (String × JVal)

/-- `data.get(key)` on a parsed JSON object. -/
def jget (d : JObj) (k : String) : Option JVal := alGet d k

/-- `dict[key] = value` (used for the ephemeral call-state `state.update`). -/
def objSet (d : JObj) (k : String) (v : JVal) : JObj := alSet d k v

/-- Python truthiness of a JSON value (`None`, `""`, `0`, `False`, `[]` and
the empty dict are falsy), as used by `data.get(...) or ""` fallbacks. -/
def jTruthy : Option JVal → Bool
  | none => false
  | some .null => false
  | some (.b v) => v
  | some (.n v) => v != 0
  | some (.s v) => v != ""
  | some (.arr vs) => !vs.isEmpty
  | some (.obj fs) => !fs.isEmpty

def escapeChar (c : Char) : String :=
  if c = '"' then "\\\"" else if c = '\\' then "\\\\" else String.singleton c

def escapeStr (s : String) : String := String.join (s.data.map escapeChar)

mutual

/-- Compact JSON serialization, `json.dumps(v, separators=(",", ":"))`. -/
def encodeJ : JVal → String
  | .null => "null"
  | .b true => "true"
  | .b false => "false"
  | .n v => toString v
  | .s v => "\"" ++ escapeStr v ++ "\""
  | .arr vs => "[" ++ encodeItems vs ++ "]"
  | .obj fs => "\x7b" ++ encodeFields fs ++ "\x7d"

def encodeItems : List JVal → String
  | [] => ""
  | [v] => encodeJ v
  | v :: vs => encodeJ v ++ "," ++ encodeItems vs

def encodeFields : List (String × JVal) → String
  | [] => ""
  | [(k, v)] => "\"" ++ escapeStr k ++ "\":" ++ encodeJ v
  | (k, v) :: fs => "\"" ++ escapeStr k ++ "\":" ++ encodeJ v ++ "," ++
      encodeFields fs

end

/-- Python `str(v)` on the values the router can see in a routing field
(strings pass through; other scalars render; containers are rendered with
their JSON text, a shape no spec-relevant dispatch path reaches). -/
def pyStr : JVal → String
  | .s v => v
  | .b true => "True"
  | .b false => "False"
  | .null => "None"
  | .n v => toString v
  | .arr vs => encodeJ (.arr vs)
  | .obj fs => encodeJ (.obj fs)

/-- `str(data.get(key) or "")`: empty string for a missing or falsy field. -/
def pyStrOrEmpty (o : Option JVal) : String :=
  if jTruthy o then pyStr (o.getD .null) else ""

/-! ## ConnectionManager (`websockets.py`, class `ConnectionManager`)

`active_connections : Dict[str, Set[WebSocket]]` maps a user id to its set of
live sockets.  Sockets are abstracted as numeric handles; the per-user set is
a duplicate-free list.  A send either succeeds or raises, which we model with
a `sendOk` oracle on handles. -/

abbrev Conn := Nat

abbrev Registry := List (String × List Conn)

def regGet (reg : Registry) (u : String) : List Conn := (alGet reg u).getD []

/-- `connect`: accept the socket and `setdefault(user_id, set()).add(ws)`. -/
def connect (reg : Registry) (u : String) (ws : Conn) : Registry :=
  let conns := regGet reg u
  if ws ∈ conns then alSet reg u conns else alSet reg u (conns ++ [ws])

/-- `disconnect`: remove `ws` from the user's set if present, and pop the
user's entry entirely once the set is empty; a missing user or socket is a
silent no-op. -/
def disconnect (reg : Registry) (u : String) (ws : Conn) : Registry :=
  let conns := regGet reg u
  if conns.isEmpty then reg
  else
    let conns2 := conns.erase ws
    if conns2.isEmpty then reg.filter (fun p => !(p.1 = u : Bool))
    else alSet reg u conns2

/-- The `for ws in list(conns)` body of `send_to_user`: deliver the shared
serialized frame to each socket, disconnecting (only) a socket whose send
raises. -/
def sendLoop (sendOk : Conn → Bool) (u : String) (data : String) :
    List Conn → Registry → Registry × List (Conn × String)
  | [], reg => (reg, [])
  | ws :: rest, reg =>
    if sendOk ws then
      let r := sendLoop sendOk u data rest reg
      (r.1, (ws, data) :: r.2)
    else sendLoop sendOk u data rest (disconnect reg u ws)

/-- `send_to_user`: serialize the event once and deliver it to every
connection currently registered for the user. -/
def send_to_user (sendOk : Conn → Bool) (reg : Registry) (u : String)
    (message : JVal) : Registry × List (Conn × String) :=
  let conns := regGet reg u
  if conns.isEmpty then (reg, [])
  else
    let data := encodeJ message
    sendLoop sendOk u data conns reg

/-! Registry lemmas. -/

theorem regGet_alSet (reg : Registry) (u : String) (cs : List Conn) :
    regGet (alSet reg u cs) u = cs := by
  simp [regGet, alGet_alSet]

theorem regGet_alSet_ne (reg : Registry) (u v : String) (cs : List Conn)
    (h : v ≠ u) : regGet (alSet reg u cs) v = regGet reg v := by
  simp [regGet, alGet_alSet_ne _ _ _ _ h]

theorem regGet_filter_ne (reg : Registry) (u v : String) (h : v ≠ u) :
    regGet (reg.filter (fun p => !(p.1 = u : Bool))) v = regGet reg v := by
  induction reg with
  | nil => rfl
  | cons p rest ih =>
    by_cases hu : p.1 = u
    · subst hu
      simp [regGet, alGet, List.filter, Ne.symm h] at ih ⊢
      exact ih
    · by_cases hv : p.1 = v <;>
        simp_all [regGet, alGet, List.filter, hu, hv, h]

theorem regGet_filter_self (reg : Registry) (u : String) :
    regGet (reg.filter (fun p => !(p.1 = u : Bool))) u = [] := by
  induction reg with
  | nil => rfl
  | cons p rest ih =>
    by_cases hu : p.1 = u <;> simp [regGet, alGet, List.filter, hu] at ih ⊢ <;>
      simp [ih]

/-- Disconnect acts on the subject's own set as set removal. -/
theorem regGet_disconnect (reg : Registry) (u : String) (ws : Conn) :
    regGet (disconnect reg u ws) u = (regGet reg u).erase ws := by
  unfold disconnect
  by_cases h0 : (regGet reg u).isEmpty
  · simp [h0, List.isEmpty_iff.mp h0]
  · simp only [h0, Bool.false_eq_true, if_false]
    by_cases h1 : ((regGet reg u).erase ws).isEmpty
    · simp [h1, regGet_filter_self, List.isEmpty_iff.mp h1]
    · simp [h1, regGet_alSet]

/-- Disconnect leaves every other subject's set untouched. -/
theorem regGet_disconnect_ne (reg : Registry) (u v : String) (ws : Conn)
    (h : v ≠ u) : regGet (disconnect reg u ws) v = regGet reg v := by
  unfold disconnect
  by_cases h0 : (regGet reg u).isEmpty
  · simp [h0]
  · simp only [h0, Bool.false_eq_true, if_false]
    by_cases h1 : ((regGet reg u).erase ws).isEmpty
    · simp [h1, regGet_filter_ne _ _ _ h]
    · simp [h1, regGet_alSet_ne _ _ _ _ h]

/-- Every socket whose send succeeds receives the one shared serialization;
a socket whose send raises is skipped without suppressing later deliveries. -/
theorem sendLoop_delivered (sendOk : Conn → Bool) (u : String) (data : String)
    (todo : List Conn) (reg : Registry) :
    (sendLoop sendOk u data todo reg).2 =
      (todo.filter sendOk).map (fun ws => (ws, data)) := by
  induction todo generalizing reg with
  | nil => rfl
  | cons ws rest ih =>
    by_cases h : sendOk ws <;> simp [sendLoop, List.filter, h, ih]

/-- The loop disconnects exactly the sockets whose send raises. -/
theorem sendLoop_regGet (sendOk : Conn → Bool) (u : String) (data : String)
    (todo : List Conn) (reg : Registry) :
    regGet (sendLoop sendOk u data todo reg).1 u =
      List.foldl (fun cs w => cs.erase w) (regGet reg u)
        (todo.filter (fun w => !sendOk w)) := by
  induction todo generalizing reg with
  | nil => rfl
  | cons ws rest ih =>
    by_cases h : sendOk ws
    · simp [sendLoop, List.filter, h, ih]
    · simp [sendLoop, List.filter, h, ih, regGet_disconnect]

theorem sendLoop_regGet_ne (sendOk : Conn → Bool) (u v : String) (data : String)
    (todo : List Conn) (reg : Registry) (h : v ≠ u) :
    regGet (sendLoop sendOk u data todo reg).1 v = regGet reg v := by
  induction todo generalizing reg with
  | nil => rfl
  | cons ws rest ih =>
    by_cases hok : sendOk ws <;>
      simp [sendLoop, hok, ih, regGet_disconnect_ne _ _ _ _ h]

/-- Erasing from a duplicate-free list each of its elements failing `p`
leaves exactly the elements satisfying `p`. -/
theorem foldl_erase_filter (p : Conn → Bool) (l : List Conn) (h : l.Nodup) :
    List.foldl (fun cs w => cs.erase w) l (l.filter (fun w => !p w)) =
      l.filter p := by
  rw [← List.diff_eq_foldl, List.Nodup.diff_eq_filter h]
  refine List.filter_congr ?_
  intro x hx
  simp [List.mem_filter, hx]

/-! ## Registry operation sequences (for the registry invariant)

The three operations the socket tasks perform against the shared registry. -/

inductive WSOp : Type where
  | connect (u : String) (ws : Conn) : WSOp
  | disconnect (u : String) (ws : Conn) : WSOp
  | send (sendOk : Conn → Bool) (u : String) (message : JVal) : WSOp

def applyOp (reg : Registry) : WSOp → Registry
  | .connect u ws => connect reg u ws
  | .disconnect u ws => disconnect reg u ws
  | .send sendOk u message => (send_to_user sendOk reg u message).1

def runOps (ops : List WSOp) : Registry := ops.foldl applyOp []

/-- No subject maps to an empty connection set. -/
def noEmptyEntry (reg : Registry) : Prop := ∀ p ∈ reg, p.2 ≠ []

/-- Each subject has at most one entry. -/
def keysNodup (reg : Registry) : Prop := (reg.map Prod.fst).Nodup

instance (reg : Registry) : Decidable (noEmptyEntry reg) := by
  unfold noEmptyEntry; infer_instance

instance (reg : Registry) : Decidable (keysNodup reg) := by
  unfold keysNodup; infer_instance

theorem mem_keys_alSet {α : Type} (l : List (String × α)) (k : String) (v : α)
    (x : String) (hx : x ∈ (alSet l k v).map Prod.fst) :
    x = k ∨ x ∈ l.map Prod.fst := by
  induction l with
  | nil => simpa [alSet] using hx
  | cons p rest ih =>
    by_cases h : p.1 = k
    · simp [alSet, h] at hx
      rcases hx with hx | hx
      · exact Or.inl hx
      · exact Or.inr (by simp [hx])
    · simp [alSet, h] at hx
      rcases hx with hx | hx
      · exact Or.inr (by simp [hx])
      · rcases ih (by simpa using hx) with hk | hm
        · exact Or.inl hk
        · exact Or.inr (by simp [hm])

theorem keysNodup_alSet {α : Type} (l : List (String × α)) (k : String) (v : α)
    (h : ((l.map Prod.fst) : List String).Nodup) :
    ((alSet l k v).map Prod.fst).Nodup := by
  induction l with
  | nil => simp [alSet]
  | cons p rest ih =>
    by_cases hp : p.1 = k
    · simpa [alSet, hp] using h
    · simp only [alSet, if_neg hp, List.map_cons, List.nodup_cons] at h ⊢
      refine ⟨fun hmem => ?_, ih h.2⟩
      rcases mem_keys_alSet rest k v p.1 hmem with rfl | hm
      · exact hp rfl
      · exact h.1 hm

theorem noEmptyEntry_alSet (reg : Registry) (u : String) (cs : List Conn)
    (hcs : cs ≠ []) (h : noEmptyEntry reg) : noEmptyEntry (alSet reg u cs) := by
  induction reg with
  | nil =>
    intro p hp
    simp [alSet] at hp
    simp [hp, hcs]
  | cons q rest ih =>
    intro p hp
    by_cases hq : q.1 = u
    · simp [alSet, hq] at hp
      rcases hp with hp | hp
      · simp [hp, hcs]
      · exact h p (by simp [hp])
    · simp [alSet, hq] at hp
      rcases hp with hp | hp
      · exact h p (by simp [hp])
      · exact ih (fun r hr => h r (by simp [hr])) p hp

theorem noEmptyEntry_connect (reg : Registry) (u : String) (ws : Conn)
    (h : noEmptyEntry reg) : noEmptyEntry (connect reg u ws) := by
  unfold connect
  by_cases hmem : ws ∈ regGet reg u
  · simp only [hmem, if_true]
    refine noEmptyEntry_alSet _ _ _ ?_ h
    intro he
    simp [he] at hmem
  · simp only [hmem, if_false]
    exact noEmptyEntry_alSet _ _ _ (by simp) h

theorem keysNodup_connect (reg : Registry) (u : String) (ws : Conn)
    (h : keysNodup reg) : keysNodup (connect reg u ws) := by
  unfold connect
  by_cases hmem : ws ∈ regGet reg u <;>
    simp only [hmem, if_true, if_false] <;> exact keysNodup_alSet _ _ _ h

theorem noEmptyEntry_disconnect (reg : Registry) (u : String) (ws : Conn)
    (h : noEmptyEntry reg) : noEmptyEntry (disconnect reg u ws) := by
  unfold disconnect
  by_cases h0 : (regGet reg u).isEmpty
  · simpa [h0] using h
  · simp only [h0, Bool.false_eq_true, if_false]
    by_cases h1 : ((regGet reg u).erase ws).isEmpty
    · simp only [h1, if_true]
      intro p hp
      exact h p (List.mem_of_mem_filter hp)
    · simp only [h1, Bool.false_eq_true, if_false]
      exact noEmptyEntry_alSet _ _ _ (by simpa using h1) h

theorem keysNodup_disconnect (reg : Registry) (u : String) (ws : Conn)
    (h : keysNodup reg) : keysNodup (disconnect reg u ws) := by
  unfold disconnect
  by_cases h0 : (regGet reg u).isEmpty
  · simpa [h0] using h
  · simp only [h0, Bool.false_eq_true, if_false]
    by_cases h1 : ((regGet reg u).erase ws).isEmpty
    · simp only [h1, if_true]
      exact List.Nodup.sublist
        (List.Sublist.map _ (List.filter_sublist _)) h
    · simp only [h1, Bool.false_eq_true, if_false]
      exact keysNodup_alSet _ _ _ h

theorem noEmptyEntry_sendLoop (sendOk : Conn → Bool) (u : String)
    (data : String) (todo : List Conn) (reg : Registry)
    (h : noEmptyEntry reg) : noEmptyEntry (sendLoop sendOk u data todo reg).1 := by
  induction todo generalizing reg with
  | nil => exact h
  | cons ws rest ih =>
    by_cases hok : sendOk ws
    · simpa [sendLoop, hok] using ih reg h
    · simpa [sendLoop, hok] using ih _ (noEmptyEntry_disconnect _ _ _ h)

theorem keysNodup_sendLoop (sendOk : Conn → Bool) (u : String)
    (data : String) (todo : List Conn) (reg : Registry)
    (h : keysNodup reg) : keysNodup (sendLoop sendOk u data todo reg).1 := by
  induction todo generalizing reg with
  | nil => exact h
  | cons ws rest ih =>
    by_cases hok : sendOk ws
    · simpa [sendLoop, hok] using ih reg h
    · simpa [sendLoop, hok] using ih _ (keysNodup_disconnect _ _ _ h)

theorem applyOp_preserves (reg : Registry) (op : WSOp)
    (h1 : noEmptyEntry reg) (h2 : keysNodup reg) :
    noEmptyEntry (applyOp reg op) ∧ keysNodup (applyOp reg op) := by
  cases op with
  | connect u ws =>
    exact ⟨noEmptyEntry_connect _ _ _ h1, keysNodup_connect _ _ _ h2⟩
  | disconnect u ws =>
    exact ⟨noEmptyEntry_disconnect _ _ _ h1, keysNodup_disconnect _ _ _ h2⟩
  | send sendOk u message =>
    unfold applyOp send_to_user
    by_cases h0 : (regGet reg u).isEmpty
    · simpa [h0] using ⟨h1, h2⟩
    · simp only [h0, Bool.false_eq_true, if_false]
      exact ⟨noEmptyEntry_sendLoop _ _ _ _ _ h1, keysNodup_sendLoop _ _ _ _ _ h2⟩

theorem runOps_invariant (ops : List WSOp) :
    noEmptyEntry (runOps ops) ∧ keysNodup (runOps ops) := by
  have aux : ∀ (l : List WSOp) (reg : Registry),
      noEmptyEntry reg → keysNodup reg →
      noEmptyEntry (l.foldl applyOp reg) ∧ keysNodup (l.foldl applyOp reg) := by
    intro l
    induction l with
    | nil => intro reg h1 h2; exact ⟨h1, h2⟩
    | cons op rest ih =>
      intro reg h1 h2
      rcases applyOp_preserves reg op h1 h2 with ⟨h1', h2'⟩
      exact ih _ h1' h2'
  exact aux ops [] (by intro p hp; cases hp) (by simp [keysNodup])

/-- On a well-formed registry, a stored entry is what lookup returns. -/
theorem regGet_of_mem (reg : Registry) (p : String × List Conn)
    (h2 : keysNodup reg) (hp : p ∈ reg) : regGet reg p.1 = p.2 := by
  induction reg with
  | nil => cases hp
  | cons q rest ih =>
    rcases List.mem_cons.mp hp with he | hp
    · subst he
      simp [regGet, alGet]
    · have hq : q.1 ≠ p.1 := by
        intro he
        simp only [keysNodup, List.map_cons, List.nodup_cons] at h2
        exact h2.1 (he ▸ List.mem_map.mpr ⟨p, hp, rfl⟩)
      have h2' : keysNodup rest := by
        simp only [keysNodup, List.map_cons, List.nodup_cons] at h2
        exact h2.2
      simp only [regGet, alGet, if_neg hq]
      exact ih h2' hp

theorem alSet_get_self {α : Type} (l : List (String × α)) (k : String) (v : α)
    (h : alGet l k = some v) : alSet l k v = l := by
  induction l with
  | nil => cases h
  | cons p rest ih =>
    by_cases hp : p.1 = k
    · subst hp
      simp [alGet] at h
      simp [alSet, ← h]
    · simp [alGet, hp] at h
      simp [alSet, hp, ih h]

/-- Disconnecting a socket that is not registered under the subject (or a
subject with no entry at all) leaves the registry unchanged. -/
theorem disconnect_not_mem (reg : Registry) (u : String) (ws : Conn)
    (h : ws ∉ regGet reg u) : disconnect reg u ws = reg := by
  unfold disconnect
  by_cases h0 : (regGet reg u).isEmpty
  · simp [h0]
  · have herase : (regGet reg u).erase ws = regGet reg u :=
      List.erase_of_not_mem h
    have hsome : alGet reg u = some (regGet reg u) := by
      unfold regGet at h0 ⊢
      cases hal : alGet reg u with
      | none => simp [hal] at h0
      | some cs => simp [hal]
    simp [h0, herase, alSet_get_self _ _ _ hsome]

/-! ## Pub/sub channels and subscription patterns
(`websockets.py`, `_subscribe_user_channels` and the `redis.publish` calls)

Channel names are built with f-strings; subscription uses `PSUBSCRIBE` with
Redis glob patterns, which we embed on character lists (star matches any
sequence, question mark any single character). -/

def wsMessagesChannel (userId : String) : String := "ws:messages:" ++ userId

def wsMessagesReactChannel (userId : String) : String :=
  "ws:messages:react:" ++ userId

def wsMessagesReadChannel (userId : String) : String :=
  "ws:messages:read:" ++ userId

def wsNotifyChannel (userId : String) : String := "ws:notify:" ++ userId

def wsCallChannel (subjectId : String) : String := "ws:call:" ++ subjectId

def wsPartyChannel (roomId : String) : String := "ws:party:" ++ roomId

/-- The catch-all pattern `ws:*:{user_id}`. -/
def wsCatchAll (userId : String) : String := "ws:*:" ++ userId

/-- The PSUBSCRIBE pattern list of `_subscribe_user_channels`. -/
def subscribePatterns (userId : String) : List String :=
  [wsMessagesChannel userId,
   wsMessagesReactChannel userId,
   wsMessagesReadChannel userId,
   wsNotifyChannel userId,
   wsCatchAll userId]

/-- Redis glob matching on character lists. -/
def globChars : List Char → List Char → Bool
  | [], s => s.isEmpty
  | p :: ps, s =>
    if p = '*' then (s.tails.map fun t => globChars ps t).any id
    else if p = '?' then
      match s with
      | [] => false
      | _ :: s2 => globChars ps s2
    else
      match s with
      | [] => false
      | c :: s2 => p = c && globChars ps s2

def globMatch (p s : String) : Bool := globChars p.data s.data

theorem globChars_star_of_suffix (ps : List Char) (s t : List Char)
    (hsuf : t <:+ s) (h : globChars ps t = true) :
    globChars ('*' :: ps) s = true := by
  unfold globChars
  rw [if_pos rfl, List.any_eq_true]
  exact ⟨globChars ps t, List.mem_map.mpr ⟨t, (List.mem_tails t s).mpr hsuf, rfl⟩, h⟩

theorem globChars_self (l : List Char) : globChars l l = true := by
  induction l with
  | nil => rfl
  | cons c rest ih =>
    by_cases hstar : c = '*'
    · subst hstar
      exact globChars_star_of_suffix _ _ _ (List.suffix_cons _ _) ih
    · by_cases hq : c = '?' <;> simp [globChars, hstar, hq, ih]

theorem string_data_append (s t : String) : (s ++ t).data = s.data ++ t.data :=
  rfl

/-- A pattern matches itself (exact, wildcard-free subscriptions). -/
theorem globMatch_self (s : String) : globMatch s s = true :=
  globChars_self s.data

/-! ## EventRouter (`websockets.py`, `_handle_client_event`)

A handler invocation produces a list of delivery effects: direct sends into
the local registry and publishes on pub/sub channels (publishes carry the
compact JSON serialization of the event, and their failures are swallowed by
the surrounding `try/except`, so only the intent is recorded). -/

inductive Effect : Type where
  | sendLocal (target : String) (event : JVal) : Effect
  | publish (channel : String) (payload : String) : Effect

/-- The `{type:"echo", payload:{unknown: data}}` reply for unknown frames. -/
def echoEffects (userId : String) (d : JObj) : List Effect :=
  [.sendLocal userId (.obj [("type", .s "echo"),
    ("payload", .obj [("unknown", .obj d)])])]

/-- Dispatch of one inbound client event (rate-limit round-trips are modelled
at the receive loop, where their failure shape matters). -/
def handleClientEvent (userId : String) (d : JObj) : List Effect :=
  match jget d "type" with
  | some (.s kind) =>
    if kind = "ping" then
      [.sendLocal userId (.obj [("type", .s "pong")])]
    else if kind = "typing" then
      let receiverId := pyStrOrEmpty (jget d "receiver_id")
      if receiverId = "" then []
      else
        [.sendLocal receiverId (.obj [("type", .s "typing"),
          ("sender_id", .s userId),
          ("is_typing", .b (jTruthy (jget d "is_typing")))])]
    else if kind = "read_receipt" then
      let receiverId := pyStrOrEmpty (jget d "receiver_id")
      let messageIds := if jTruthy (jget d "message_ids") then
          (jget d "message_ids").getD (.arr []) else .arr []
      let ev : JVal := .obj [("type", .s "messages_read"),
        ("from", .s userId), ("message_ids", messageIds),
        ("read_at", (jget d "read_at").getD .null)]
      [.sendLocal receiverId ev,
       .publish (wsMessagesReadChannel receiverId) (encodeJ ev)]
    else if kind = "signal" then
      let toId := pyStrOrEmpty (jget d "to")
      if toId = "" then []
      else
        let ev : JVal := .obj [("type", .s "signal"), ("from", .s userId),
          ("call_id", (jget d "call_id").getD .null),
          ("signal_type", (jget d "signal_type").getD .null),
          ("payload", (jget d "payload").getD .null)]
        [.sendLocal toId ev, .publish (wsCallChannel toId) (encodeJ ev)]
    else if kind = "party" then
      let roomId := pyStrOrEmpty (jget d "room_id")
      let ev : JVal := .obj [("type", .s "party"), ("from", .s userId),
        ("room_id", .s roomId), ("action", (jget d "action").getD .null),
        ("timestamp", (jget d "timestamp").getD .null),
        ("position", (jget d "position").getD .null),
        ("provider", (jget d "provider").getD .null),
        ("track_id", (jget d "track_id").getD .null)]
      [.publish (wsPartyChannel roomId) (encodeJ ev)]
    else if kind = "message" then
      let receiverId := pyStrOrEmpty (jget d "receiver_id")
      let ev : JVal := .obj [("type", .s "new_message"), ("from", .s userId),
        ("message_id", (jget d "message_id").getD .null),
        ("client_id", (jget d "client_id").getD .null),
        ("delivered_at", (jget d "delivered_at").getD .null)]
      [.sendLocal receiverId ev,
       .publish (wsMessagesChannel receiverId) (encodeJ ev)]
    else echoEffects userId d
  | _ => echoEffects userId d

/-- The channels an effect list publishes on. -/
def publishChannels (effects : List Effect) : List String :=
  effects.filterMap fun e =>
    match e with
    | .publish ch _ => some ch
    | _ => none

/-- The subjects an effect list sends to directly through the registry. -/
def directTargets (effects : List Effect) : List String :=
  effects.filterMap fun e =>
    match e with
    | .sendLocal t _ => some t
    | _ => none

/-! ## The receive loop (`websocket_endpoint`)

Each inbound frame is processed under rate limiting (the generic receive
throttle plus the per-type throttle inside `_handle_client_event`); a
`RateLimited` raise from either is a `RuntimeError` that no handler catches,
so it unwinds the `while True` loop into the outer `except`/`finally`, which
cancels the forwarder and disconnects the socket.  A frame is a pair of the
rate limiter's verdict for that event (`true` = some `rate_limit` call
raised) and the decoded JSON object. -/

def wsLoop (userId : String) (ws : Conn) (reg : Registry) :
    List (Bool × JObj) → Registry × List Effect
  | [] => (disconnect reg userId ws, [])
  | (rl, frame) :: rest =>
    if rl then (disconnect reg userId ws, [])
    else
      let r := wsLoop userId ws reg rest
      (r.1, handleClientEvent userId frame ++ r.2)

/-! ## TokenGate (`services/auth.py`, `AuthService.verify_token`, and
`websockets.py`, `_validate_token_and_blacklist` / `websocket_endpoint`)

A credential is abstracted by whether `jwt.decode` accepts it (signature
valid and unexpired), its declared `type` claim, its optional `jti`
identifier and its `sub` claim (empty string for a missing subject). -/

structure Token : Type where
  decodeOk : Bool
  typ : String
  jti : Option String
  sub : String

/-- `AuthService.verify_token`: decode, then require the declared type. -/
def verify_token (tok : Token) (token_type : String) : Option Token :=
  if !tok.decodeOk then none
  else if tok.typ != token_type then none
  else some tok

inductive AuthErr : Type where
  | invalidToken : AuthErr
  | blacklistCheckFailed : AuthErr
deriving DecidableEq

/-- `_validate_token_and_blacklist`.  Note that the code raises
`token_blacklisted` inside the `try` whose `except Exception` clause
re-raises `blacklist_check_failed`, so a blacklisted `jti` surfaces under the
latter label; either way the admission attempt fails. -/
def validate_token_and_blacklist (blacklist : List String)
    (blacklistFails : Bool) (tok : Token) : Except AuthErr Token :=
  match verify_token tok "access" with
  | none => .error .invalidToken
  | some payload =>
    match payload.jti with
    | none => .ok payload
    | some j =>
      if j = "" then .ok payload
      else if blacklistFails then .error .blacklistCheckFailed
      else if j ∈ blacklist then .error .blacklistCheckFailed
      else .ok payload

inductive Admission : Type where
  | closed (code : Nat) : Admission
  | accepted (userId : String) : Admission
deriving DecidableEq

/-- The admission part of `websocket_endpoint`: any failure obtaining Redis
or validating the token closes with the policy-violation code 1008, as does
an empty `sub`; otherwise the socket is accepted for that subject. -/
def wsAdmit (redisOk : Bool) (blacklist : List String)
    (blacklistFails : Bool) (tok : Token) : Admission :=
  if !redisOk then .closed 1008
  else
    match validate_token_and_blacklist blacklist blacklistFails tok with
    | .error _ => .closed 1008
    | .ok payload =>
      if payload.sub = "" then .closed 1008
      else .accepted payload.sub

/-! ## RateLimiter (`rate_limit` in `calls.py` and `websockets.py`; both
variants share the key scheme, the INCR/EXPIRE/TTL sequence, the
`ttl if ttl > 0 else window_seconds` retry hint and the fail-open policy)

The Redis counter store maps keys to a count and an optional absolute expiry
instant; a key whose expiry has passed behaves as absent.  Faults of the
counting store are inputs (`incrFails` for the initial INCR, `expireFails`
for the EXPIRE setting a fresh window): the surrounding `except` clause
swallows them and lets the action proceed. -/

structure RLEntry : Type where
  count : Nat
  expiresAt : Option Int
deriving DecidableEq

abbrev RLStore := List (String × RLEntry)

def rlKey (userId actionKey : String) : String :=
  "rl:" ++ userId ++ ":" ++ actionKey

/-- Lazy expiry: a key at or past its expiry instant is gone. -/
def rlLookup (t : Int) (st : RLStore) (k : String) : Option RLEntry :=
  match alGet st k with
  | some e =>
    match e.expiresAt with
    | some x => if t < x then some e else none
    | none => some e
  | none => none

/-- `INCR key` (creates the key with no TTL when absent). -/
def rlIncr (t : Int) (st : RLStore) (k : String) : Nat × RLStore :=
  match rlLookup t st k with
  | some e => (e.count + 1, alSet st k { e with count := e.count + 1 })
  | none => (1, alSet st k { count := 1, expiresAt := none })

/-- `EXPIRE key window_seconds`. -/
def rlExpire (t : Int) (st : RLStore) (k : String) (window : Nat) : RLStore :=
  match rlLookup t st k with
  | some e => alSet st k { e with expiresAt := some (t + (window : Int)) }
  | none => st

/-- `TTL key` (−2 for a missing key, −1 for a key with no expiry). -/
def rlTtl (t : Int) (st : RLStore) (k : String) : Int :=
  match rlLookup t st k with
  | none => -2
  | some e =>
    match e.expiresAt with
    | none => -1
    | some x => x - t

structure RLFault : Type where
  incrFails : Bool := false
  expireFails : Bool := false
deriving DecidableEq

/-- `rate_limit(redis, user_id, action_key, limit, window_seconds)` at
instant `t`: `none` means the action proceeds, `some retryAfter` means
`RateLimited` was raised with that retry hint. -/
def rate_limit (fault : RLFault) (t : Int) (userId actionKey : String)
    (limit window : Nat) (st : RLStore) : RLStore × Option Int :=
  if fault.incrFails then (st, none)
  else
    let k := rlKey userId actionKey
    let r := rlIncr t st k
    let current := r.1
    if current = 1 && fault.expireFails then (r.2, none)
    else
      let st2 := if current = 1 then rlExpire t r.2 k window else r.2
      if current > limit then
        let ttl := rlTtl t st2 k
        (st2, some (if ttl > 0 then ttl else (window : Int)))
      else (st2, none)

/-- Fault-free run of the limiter over a list of call instants for one
`(subject, action)` pair. -/
def rlRun (userId actionKey : String) (limit window : Nat) :
    List Int → RLStore → RLStore × List (Option Int)
  | [], st => (st, [])
  | t :: ts, st =>
    let r := rate_limit {} t userId actionKey limit window st
    let rest := rlRun userId actionKey limit window ts r.1
    (rest.1, r.2 :: rest.2)

/-- The verdicts the spec predicts for calls number `c+1, c+2, ...` made at
the given instants inside a window expiring at `e`. -/
def expectedVerdicts (limit : Nat) (e : Int) : Nat → List Int → List (Option Int)
  | _, [] => []
  | c, t :: ts =>
    (if c + 1 > limit then some (e - t) else none) ::
      expectedVerdicts limit e (c + 1) ts

/-- First increment in a window (key absent): count 1, fresh expiry. -/
theorem rate_limit_fresh (t : Int) (userId actionKey : String)
    (limit window : Nat) (st : RLStore)
    (h : alGet st (rlKey userId actionKey) = none) :
    rate_limit {} t userId actionKey limit window st =
      (alSet st (rlKey userId actionKey)
        { count := 1, expiresAt := some (t + (window : Int)) },
       if 1 > limit then some (window : Int) else none) := by
  unfold rate_limit rlIncr rlExpire rlTtl rlLookup
  by_cases hw : (0 : Int) < (window : Int)
  · have hlt : t < t + (window : Int) := by omega
    have heq : (t + (window : Int)) - t = (window : Int) := by omega
    by_cases hl : limit = 0 <;>
      simp [h, alGet_alSet, alSet_alSet, hlt, heq, hw, hl]
  · have hw0 : (window : Int) = 0 := by omega
    have hlt : ¬ t < t + (window : Int) := by omega
    by_cases hl : limit = 0 <;>
      simp [h, alGet_alSet, alSet_alSet, hlt, hw0, hl]

/-- An increment inside a live window: count bumps, expiry untouched, and a
call past the limit is refused with the remaining window time. -/
theorem rate_limit_live (t : Int) (userId actionKey : String)
    (limit window : Nat) (st : RLStore) (c : Nat) (e : Int)
    (h : alGet st (rlKey userId actionKey) =
      some { count := c, expiresAt := some e })
    (hc : 1 ≤ c) (ht : t < e) :
    rate_limit {} t userId actionKey limit window st =
      (alSet st (rlKey userId actionKey)
        { count := c + 1, expiresAt := some e },
       if c + 1 > limit then some (e - t) else none) := by
  unfold rate_limit rlIncr rlExpire rlTtl rlLookup
  have hne : ¬ c + 1 = 1 := by omega
  have hpos : (0 : Int) < e - t := by omega
  by_cases hl : limit < c + 1 <;>
    simp [h, ht, alGet_alSet, hne, hpos, hl]

/-- An increment when the previous window has lapsed behaves as a first
call: the count resets to 1 with a fresh expiry. -/
theorem rate_limit_lapsed (t : Int) (userId actionKey : String)
    (limit window : Nat) (st : RLStore) (c : Nat) (e : Int)
    (h : alGet st (rlKey userId actionKey) =
      some { count := c, expiresAt := some e })
    (ht : e ≤ t) :
    rate_limit {} t userId actionKey limit window st =
      (alSet st (rlKey userId actionKey)
        { count := 1, expiresAt := some (t + (window : Int)) },
       if 1 > limit then some (window : Int) else none) := by
  unfold rate_limit rlIncr rlExpire rlTtl rlLookup
  have hnlt : ¬ t < e := by omega
  by_cases hw : (0 : Int) < (window : Int)
  · have hlt : t < t + (window : Int) := by omega
    have heq : (t + (window : Int)) - t = (window : Int) := by omega
    by_cases hl : limit = 0 <;>
      simp [h, hnlt, alGet_alSet, alSet_alSet, hlt, heq, hw, hl]
  · have hw0 : (window : Int) = 0 := by omega
    have hlt : ¬ t < t + (window : Int) := by omega
    by_cases hl : limit = 0 <;>
      simp [h, hnlt, alGet_alSet, alSet_alSet, hlt, hw0, hl]

/-- When the window expiry was never set (the EXPIRE round-trip failed), a
refused call falls back to `window_seconds` as its retry hint. -/
theorem rate_limit_no_expiry_fallback (t : Int) (userId actionKey : String)
    (limit window : Nat) (st : RLStore) (c : Nat)
    (h : alGet st (rlKey userId actionKey) =
      some { count := c, expiresAt := none })
    (hc : 1 ≤ c) (hlim : limit ≤ c) :
    rate_limit {} t userId actionKey limit window st =
      (alSet st (rlKey userId actionKey)
        { count := c + 1, expiresAt := none },
       some (window : Int)) := by
  unfold rate_limit rlIncr rlExpire rlTtl rlLookup
  have hne : ¬ c + 1 = 1 := by omega
  have hover : c + 1 > limit := by omega
  simp [h, alGet_alSet, hne, hover]

/-- A fault-free run inside one live window: verdict `n ≤ limit` for the
`n`-th call, `RateLimited` with the remaining window time past the limit,
and the counter simply accumulates. -/
theorem rlRun_within (userId actionKey : String) (limit window : Nat)
    (ts : List Int) (st : RLStore) (c : Nat) (e : Int)
    (h : alGet st (rlKey userId actionKey) =
      some { count := c, expiresAt := some e })
    (hc : 1 ≤ c) (hts : ∀ t ∈ ts, t < e) :
    (rlRun userId actionKey limit window ts st).2 =
        expectedVerdicts limit e c ts ∧
      alGet (rlRun userId actionKey limit window ts st).1
          (rlKey userId actionKey) =
        some { count := c + ts.length, expiresAt := some e } := by
  induction ts generalizing st c with
  | nil => exact ⟨rfl, by simpa using h⟩
  | cons t ts ih =>
    have hstep := rate_limit_live t userId actionKey limit window st c e h hc
      (hts t (by simp))
    have hget : alGet (alSet st (rlKey userId actionKey)
        { count := c + 1, expiresAt := some e }) (rlKey userId actionKey) =
        some { count := c + 1, expiresAt := some e } := alGet_alSet _ _ _
    have hrest := ih _ (c + 1) hget (by omega)
      (fun x hx => hts x (by simp [hx]))
    refine ⟨?_, ?_⟩
    · simp only [rlRun, hstep, expectedVerdicts]
      exact congrArg _ hrest.1
    · simp only [rlRun, hstep]
      rw [hrest.2]
      refine congrArg _ ?_
      simp [Nat.add_assoc, Nat.add_comm 1 ts.length]

/-! ## CallSignalingService (`calls.py` and the `Call` model in
`models/message.py`)

The durable `calls` table is keyed by call id; `duration` has column default
0 and `status` default `"initiated"`.  The ephemeral mirror lives under Redis
key `call:{id}` as a JSON snapshot plus its TTL, and `user:{id}:calls` sets
index call membership.  Faults of the ephemeral layer and the two guards
that precede the durable lookup are inputs. -/

structure CallRec : Type where
  id : String
  caller_id : String
  receiver_id : String
  call_type : String
  status : String
  started_at : Int
  answered_at : Option Int
  ended_at : Option Int
  duration : Int
deriving DecidableEq

inductive HErr : Type where
  | notFound : HErr
  | forbidden : HErr
  | conflict : HErr
  | unprocessable : HErr
  | rateLimited : HErr
  | internal : HErr
deriving DecidableEq

structure CallStore : Type where
  db : List (String × CallRec)
  cache : List (String × (JObj × Nat))
  userCalls : List (String × List String)

structure CallEnv : Type where
  rlRetry : Option Int := none
  uuidOk : Bool := true
  cacheReadFails : Bool := false
  cacheWriteFails : Bool := false

/-- The all-clear environment: limiter allows, id parses, Redis healthy. -/
def okEnv : CallEnv := {}

def jOptInt : Option Int → JVal
  | some t => .n t
  | none => .null

/-- The snapshot `initiate_call` writes (TTL 3600), including the
`ws:call:{call_id}` routing hint. -/
def initialSnap (call : CallRec) : JObj :=
  [("call_id", .s call.id), ("status", .s "initiated"),
   ("caller_id", .s call.caller_id), ("receiver_id", .s call.receiver_id),
   ("call_type", .s call.call_type), ("started_at", .n call.started_at),
   ("answered_at", jOptInt call.answered_at),
   ("ended_at", jOptInt call.ended_at), ("duration", .n call.duration),
   ("channel", .s (wsCallChannel call.id)), ("meta", .obj [])]

/-- `SADD user:{id}:calls call_id`. -/
def saddUserCall (idx : List (String × List String)) (userId callId : String) :
    List (String × List String) :=
  let cur := (alGet idx userId).getD []
  if callId ∈ cur then idx else alSet idx userId (cur ++ [callId])

/-- `POST /initiate`: persist the durable row first, then write the
ephemeral snapshot and the membership sets. -/
def initiate_call (env : CallEnv) (now : Int) (newId caller receiver
    callType : String) (st : CallStore) :
    CallStore × Except HErr (String × String × Int) :=
  match env.rlRetry with
  | some _ => (st, .error .rateLimited)
  | none =>
    let call : CallRec :=
      { id := newId
        caller_id := caller
        receiver_id := receiver
        call_type := callType
        status := "initiated"
        started_at := now
        answered_at := none
        ended_at := none
        duration := 0 }
    let st1 : CallStore := { st with db := alSet st.db newId call }
    if env.cacheWriteFails then (st1, .error .internal)
    else
      let st2 : CallStore :=
        { st1 with cache := alSet st1.cache newId (initialSnap call, 3600) }
      let idx :=
        saddUserCall (saddUserCall st2.userCalls caller newId) receiver newId
      let st3 : CallStore := { st2 with userCalls := idx }
      (st3, .ok (newId, "initiated", now))

/-- `POST /{call_id}/answer`: receiver-only, not on an ended call; durable
commit, then refresh the snapshot with TTL 1800. -/
def answer_call (env : CallEnv) (now : Int) (callId actor : String)
    (st : CallStore) : CallStore × Except HErr Unit :=
  match env.rlRetry with
  | some _ => (st, .error .rateLimited)
  | none =>
    if !env.uuidOk then (st, .error .unprocessable)
    else
      match alGet st.db callId with
      | none => (st, .error .notFound)
      | some call =>
        if call.receiver_id ≠ actor then (st, .error .forbidden)
        else if call.status = "ended" then (st, .error .conflict)
        else
          let call2 : CallRec :=
            { call with
                status := "answered"
                answered_at := some now }
          let st1 : CallStore := { st with db := alSet st.db callId call2 }
          if env.cacheReadFails then (st1, .error .internal)
          else
            let snap := ((alGet st1.cache callId).map Prod.fst).getD []
            let snap2 := objSet (objSet snap "status" (.s "answered"))
              "answered_at" (jOptInt call2.answered_at)
            if env.cacheWriteFails then (st1, .error .internal)
            else
              ({ st1 with cache := alSet st1.cache callId (snap2, 1800) },
               .ok ())

/-- `POST /{call_id}/end`: caller or receiver; the durable transition and
duration computation happen only when the call is not already ended; the
snapshot refresh (TTL 300) always runs; the stored duration is returned. -/
def end_call (env : CallEnv) (now : Int) (callId actor : String)
    (st : CallStore) : CallStore × Except HErr Int :=
  match env.rlRetry with
  | some _ => (st, .error .rateLimited)
  | none =>
    if !env.uuidOk then (st, .error .unprocessable)
    else
      match alGet st.db callId with
      | none => (st, .error .notFound)
      | some call =>
        if actor ≠ call.caller_id ∧ actor ≠ call.receiver_id then
          (st, .error .forbidden)
        else
          let call2 : CallRec :=
            if call.status ≠ "ended" then
              { call with
                  status := "ended"
                  ended_at := some now
                  duration :=
                    match call.answered_at with
                    | some a => now - a
                    | none => call.duration }
            else call
          let st1 : CallStore :=
            if call.status ≠ "ended" then
              { st with db := alSet st.db callId call2 }
            else st
          if env.cacheReadFails then (st1, .error .internal)
          else
            let snap := ((alGet st1.cache callId).map Prod.fst).getD []
            let snap2 := objSet (objSet (objSet snap "status" (.s "ended"))
              "ended_at" (jOptInt call2.ended_at)) "duration" (.n call2.duration)
            if env.cacheWriteFails then (st1, .error .internal)
            else
              ({ st1 with cache := alSet st1.cache callId (snap2, 300) },
               .ok call2.duration)

/-! ## Claims -/

/-! ### C1 — per-event rate-limit faults and the receive loop -/

def pingFrame : JObj := [("type", JVal.s "ping")]

/-- Claim C1 counterexample: with a single admitted connection, a single
rate-limited frame empties the registry (the connection is torn down) and
the following frame is never processed (no `pong` effect), contradicting the
claim that the connection stays registered and the loop continues. -/
theorem C1_counterexample :
    wsLoop "alice" 1 (connect [] "alice" 1)
      [(true, pingFrame), (false, pingFrame)] = ([], []) := rfl

/-- Claim C1 (amended): events whose handling raises no exception are
processed locally in order, but the first event on which a `rate_limit` call
raises `RateLimited` unwinds the receive loop: processing stops at that
event and the `finally` block removes the connection from the registry, so a
rate-limited event does tear the connection down. -/
theorem C1_rate_limited_event_tears_down_connection (u : String) (ws : Conn)
    (reg : Registry) (pre : List (Bool × JObj)) (f : JObj)
    (post : List (Bool × JObj)) (hpre : ∀ q ∈ pre, q.1 = false) :
    wsLoop u ws reg (pre ++ (true, f) :: post) =
      (disconnect reg u ws,
       (pre.map fun q => handleClientEvent u q.2).flatten) := by
  induction pre with
  | nil => simp [wsLoop]
  | cons q rest ih =>
    obtain ⟨b, d⟩ := q
    have hq : b = false := hpre (b, d) (by simp)
    subst hq
    have ih2 := ih (fun r hr => hpre r (List.mem_cons_of_mem _ hr))
    simp only [List.cons_append, wsLoop, Bool.false_eq_true, if_false,
      List.map_cons, List.flatten_cons, List.append_eq, ih2]

theorem C1_witness :
    wsLoop "alice" 1 (connect [] "alice" 1)
        [(false, pingFrame), (true, pingFrame), (false, pingFrame)] =
      ([], [Effect.sendLocal "alice" (.obj [("type", .s "pong")])]) := by
  have h := C1_rate_limited_event_tears_down_connection "alice" 1
    (connect [] "alice" 1) [(false, pingFrame)] pingFrame
    [(false, pingFrame)]
    (by
      intro q hq
      rw [List.mem_singleton.mp hq])
  rw [List.singleton_append] at h
  rw [h]
  rfl

/-! ### C2 — empty/missing routing fields -/

def emptyReadReceiptFrame : JObj := [("type", JVal.s "read_receipt")]

/-- Claim C2 counterexample: a `read_receipt` frame with no `receiver_id`
still publishes (one publish, on the read channel suffixed with the empty
subject), so its dispatch is not a complete no-op. -/
theorem C2_counterexample :
    publishChannels (handleClientEvent "alice" emptyReadReceiptFrame) =
      ["ws:messages:read:"] := rfl

/-- Claim C2 (amended): `typing` and `signal` events with an empty or
missing target are complete no-ops; `read_receipt` and `message` events with
an empty or missing `receiver_id` raise no error and target only the empty
subject directly (which the registry never holds, since admission rejects an
empty `sub`), but they still publish the event on the per-user channel
formed from the empty subject. -/
theorem C2_empty_target_dispatch (u : String) (d : JObj) :
    (jget d "type" = some (.s "typing") →
      jTruthy (jget d "receiver_id") = false → handleClientEvent u d = []) ∧
    (jget d "type" = some (.s "signal") →
      jTruthy (jget d "to") = false → handleClientEvent u d = []) ∧
    (jget d "type" = some (.s "read_receipt") →
      jTruthy (jget d "receiver_id") = false →
      directTargets (handleClientEvent u d) = [""] ∧
      publishChannels (handleClientEvent u d) = ["ws:messages:read:"]) ∧
    (jget d "type" = some (.s "message") →
      jTruthy (jget d "receiver_id") = false →
      directTargets (handleClientEvent u d) = [""] ∧
      publishChannels (handleClientEvent u d) = ["ws:messages:"]) := by
  refine ⟨fun ht hr => ?_, fun ht hr => ?_, fun ht hr => ?_, fun ht hr => ?_⟩ <;>
    simp [handleClientEvent, ht, pyStrOrEmpty, hr, directTargets,
      publishChannels, wsMessagesReadChannel, wsMessagesChannel]

theorem C2_witness :
    handleClientEvent "alice" [("type", JVal.s "typing")] = [] ∧
    handleClientEvent "alice" [("type", JVal.s "signal"),
      ("to", JVal.s "")] = [] ∧
    directTargets (handleClientEvent "alice" [("type", JVal.s "message")]) =
      [""] ∧
    publishChannels (handleClientEvent "alice" [("type", JVal.s "message")]) =
      ["ws:messages:"] := by
  refine ⟨(C2_empty_target_dispatch "alice" [("type", JVal.s "typing")]).1
      rfl rfl,
    (C2_empty_target_dispatch "alice" [("type", JVal.s "signal"),
      ("to", JVal.s "")]).2.1 rfl rfl,
    ((C2_empty_target_dispatch "alice"
      [("type", JVal.s "message")]).2.2.2 rfl rfl).1,
    ((C2_empty_target_dispatch "alice"
      [("type", JVal.s "message")]).2.2.2 rfl rfl).2⟩

/-! ### C3 — channel naming -/

/-- Modelled from the spec's channel-naming words (`events:<category>:
<subjectId>`), for comparison against the code's channel builders. -/
def specMessagesChannel (subjectId : String) : String :=
  "events:messages:" ++ subjectId

/-- Claim C3 counterexample: the message channel the code publishes on for
subject `u1` is `ws:messages:u1`, not the `events:messages:u1` form the
claim prescribes character for character. -/
theorem C3_counterexample :
    wsMessagesChannel "u1" ≠ specMessagesChannel "u1" := by decide

theorem globChars_cons_same (c : Char) (h1 : ¬c = '*') (h2 : ¬c = '?')
    (ps s : List Char) : globChars (c :: ps) (c :: s) = globChars ps s := by
  simp [globChars, h1, h2]

/-- Claim C3 (amended): channel names are `ws:`-namespaced —
`ws:messages:<subjectId>`, `ws:messages:react:<subjectId>`,
`ws:messages:read:<subjectId>`, `ws:notify:<subjectId>` per user,
`ws:call:<subjectId>` for call signaling and `ws:party:<roomId>` for
room-scoped sync — and every per-user publish (message, read receipt,
call signal) lands on a channel matched by a subscription pattern of the
target subject: the message and read channels are subscribed verbatim and
the call channel is caught by the `ws:*:<subjectId>` wildcard.  (Room
`party` publishes go to `ws:party:<roomId>`, which the per-user patterns
only cover for a subject whose id equals the room id.) -/
theorem C3_channel_naming_matches_subscriptions (u : String) :
    (∃ p ∈ subscribePatterns u, globMatch p (wsMessagesChannel u) = true) ∧
    (∃ p ∈ subscribePatterns u, globMatch p (wsMessagesReadChannel u) = true) ∧
    (∃ p ∈ subscribePatterns u, globMatch p (wsCallChannel u) = true) := by
  refine ⟨⟨wsMessagesChannel u, by simp [subscribePatterns], globMatch_self _⟩,
    ⟨wsMessagesReadChannel u, by simp [subscribePatterns], globMatch_self _⟩,
    ⟨wsCatchAll u, by simp [subscribePatterns], ?_⟩⟩
  show globChars ("ws:*:" ++ u).data ("ws:call:" ++ u).data = true
  rw [string_data_append, string_data_append]
  have hstar : globChars ('*' :: ':' :: u.data)
      ('c' :: 'a' :: 'l' :: 'l' :: ':' :: u.data) = true :=
    globChars_star_of_suffix _ _ _ ⟨['c', 'a', 'l', 'l'], rfl⟩
      (globChars_self _)
  show globChars ('w' :: 's' :: ':' :: '*' :: ':' :: u.data)
      ('w' :: 's' :: ':' :: 'c' :: 'a' :: 'l' :: 'l' :: ':' :: u.data) = true
  rw [globChars_cons_same 'w' (by decide) (by decide),
    globChars_cons_same 's' (by decide) (by decide),
    globChars_cons_same ':' (by decide) (by decide)]
  exact hstar

/-! ### C6 — fan-out with per-connection failure isolation -/

/-- Claim C6: `send_to_user` serializes the event once and hands the same
frame to every connection registered for the subject; a connection whose
send raises is pruned — and only it — while delivery to the remaining
connections proceeds and no error reaches the caller; other subjects'
entries are untouched. -/
theorem C6_send_to_user_fanout_isolation (sendOk : Conn → Bool)
    (reg : Registry) (u : String) (m : JVal)
    (hnd : (regGet reg u).Nodup) :
    (send_to_user sendOk reg u m).2 =
      ((regGet reg u).filter sendOk).map (fun ws => (ws, encodeJ m)) ∧
    regGet (send_to_user sendOk reg u m).1 u = (regGet reg u).filter sendOk ∧
    (∀ v, v ≠ u → regGet (send_to_user sendOk reg u m).1 v = regGet reg v) := by
  unfold send_to_user
  by_cases h0 : (regGet reg u).isEmpty
  · have he : regGet reg u = [] := List.isEmpty_iff.mp h0
    simp [h0, he]
  · simp only [h0, Bool.false_eq_true, if_false]
    refine ⟨sendLoop_delivered _ _ _ _ _, ?_,
      fun v hv => sendLoop_regGet_ne _ _ _ _ _ _ hv⟩
    rw [sendLoop_regGet]
    exact foldl_erase_filter sendOk _ hnd

def c6Reg : Registry := [("alice", [1, 2, 3]), ("bob", [7])]

theorem C6_witness :
    (send_to_user (fun ws => ws != 2) c6Reg "alice" (JVal.s "hi")).2 =
      [(1, encodeJ (JVal.s "hi")), (3, encodeJ (JVal.s "hi"))] ∧
    regGet (send_to_user (fun ws => ws != 2) c6Reg "alice" (JVal.s "hi")).1
      "alice" = [1, 3] ∧
    regGet (send_to_user (fun ws => ws != 2) c6Reg "alice" (JVal.s "hi")).1
      "bob" = [7] := by
  have h := C6_send_to_user_fanout_isolation (fun ws => ws != 2) c6Reg
    "alice" (JVal.s "hi") (by decide)
  refine ⟨?_, ?_, ?_⟩
  · rw [h.1]
    rfl
  · rw [h.2.1]
    rfl
  · rw [h.2.2 "bob" (by decide)]
    rfl

/-! ### C10 — registry invariant -/

/-- Claim C10: after any sequence of connect / disconnect / send operations
starting from the empty registry, no subject maps to an empty connection
set (the entry is pruned as soon as its last connection goes); and
disconnecting a socket that is not registered under the subject — or a
subject with no entry — leaves the registry unchanged and raises no error. -/
theorem C10_registry_invariant_thm :
    (∀ ops : List WSOp, noEmptyEntry (runOps ops)) ∧
    (∀ (reg : Registry) (u : String) (ws : Conn),
      ws ∉ regGet reg u → disconnect reg u ws = reg) :=
  ⟨fun ops => (runOps_invariant ops).1,
   fun reg u ws h => disconnect_not_mem reg u ws h⟩

theorem C10_witness :
    noEmptyEntry (runOps [WSOp.connect "alice" 1, WSOp.connect "alice" 2,
      WSOp.send (fun ws => ws != 1) "alice" (JVal.s "hi"),
      WSOp.disconnect "alice" 2]) ∧
    disconnect [("alice", [1])] "bob" 9 = [("alice", [1])] ∧
    disconnect [("alice", [1])] "alice" 9 = [("alice", [1])] := by
  refine ⟨C10_registry_invariant_thm.1 _,
    C10_registry_invariant_thm.2 _ _ _ (by decide),
    C10_registry_invariant_thm.2 _ _ _ (by decide)⟩

/-! ### C7 — fixed-window rate limiter -/

/-- Claim C7: for a `(subject, action)` key starting a fresh window at `t0`,
the `n`-th call inside the window is allowed iff `n ≤ limit` and a call past
the limit raises `RateLimited` carrying the remaining window time (the
verdict list is `expectedVerdicts`); the counter accumulates with the
window's expiry fixed at `t0 + window`; any call at or after the expiry
behaves as call #1 and installs a fresh expiry; and when the expiry could
not be set, the refused call falls back to `window` as its retry hint. -/
theorem C7_fixed_window_rate_limiter (userId actionKey : String)
    (limit window : Nat) (t0 : Int) (ts : List Int) (st : RLStore)
    (hst : alGet st (rlKey userId actionKey) = none)
    (hlim : 1 ≤ limit)
    (hts : ∀ t ∈ ts, t < t0 + (window : Int)) :
    (rlRun userId actionKey limit window (t0 :: ts) st).2 =
      none :: expectedVerdicts limit (t0 + (window : Int)) 1 ts ∧
    alGet (rlRun userId actionKey limit window (t0 :: ts) st).1
        (rlKey userId actionKey) =
      some { count := 1 + ts.length,
             expiresAt := some (t0 + (window : Int)) } ∧
    (∀ t2, t0 + (window : Int) ≤ t2 →
      rate_limit {} t2 userId actionKey limit window
          (rlRun userId actionKey limit window (t0 :: ts) st).1 =
        (alSet (rlRun userId actionKey limit window (t0 :: ts) st).1
          (rlKey userId actionKey)
          { count := 1, expiresAt := some (t2 + (window : Int)) }, none)) ∧
    (∀ (st2 : RLStore) (c : Nat) (t3 : Int),
      alGet st2 (rlKey userId actionKey) =
        some { count := c, expiresAt := none } →
      limit ≤ c →
      rate_limit {} t3 userId actionKey limit window st2 =
        (alSet st2 (rlKey userId actionKey)
          { count := c + 1, expiresAt := none }, some (window : Int))) := by
  have hallow : ¬ 1 > limit := by omega
  have h1 := rate_limit_fresh t0 userId actionKey limit window st hst
  have hget : alGet (alSet st (rlKey userId actionKey)
      { count := 1, expiresAt := some (t0 + (window : Int)) })
      (rlKey userId actionKey) =
      some { count := 1, expiresAt := some (t0 + (window : Int)) } :=
    alGet_alSet _ _ _
  have hrest := rlRun_within userId actionKey limit window ts _ 1
    (t0 + (window : Int)) hget (le_refl 1) hts
  have hsplit : rlRun userId actionKey limit window (t0 :: ts) st =
      ((rlRun userId actionKey limit window ts
        (alSet st (rlKey userId actionKey)
          { count := 1, expiresAt := some (t0 + (window : Int)) })).1,
       none :: (rlRun userId actionKey limit window ts
        (alSet st (rlKey userId actionKey)
          { count := 1, expiresAt := some (t0 + (window : Int)) })).2) := by
    simp only [rlRun, h1, hallow, if_false]
  refine ⟨?_, ?_, ?_, ?_⟩
  · rw [hsplit]
    exact congrArg _ hrest.1
  · rw [hsplit]
    exact hrest.2
  · intro t2 ht2
    have hget2 : alGet (rlRun userId actionKey limit window (t0 :: ts) st).1
        (rlKey userId actionKey) =
        some { count := 1 + ts.length,
               expiresAt := some (t0 + (window : Int)) } := by
      rw [hsplit]
      exact hrest.2
    have hl := rate_limit_lapsed t2 userId actionKey limit window _
      (1 + ts.length) (t0 + (window : Int)) hget2 ht2
    rw [hl]
    simp [hallow]
  · intro st2 c t3 hget3 hlimc
    exact rate_limit_no_expiry_fallback t3 userId actionKey limit window st2
      c hget3 (by omega) hlimc

theorem C7_witness :
    (rlRun "alice" "ws:recv" 2 10 [0, 3, 5] []).2 =
      [none, none, some 5] ∧
    alGet (rlRun "alice" "ws:recv" 2 10 [0, 3, 5] []).1
        (rlKey "alice" "ws:recv") =
      some { count := 3, expiresAt := some 10 } ∧
    rate_limit {} 12 "alice" "ws:recv" 2 10
        (rlRun "alice" "ws:recv" 2 10 [0, 3, 5] []).1 =
      (alSet (rlRun "alice" "ws:recv" 2 10 [0, 3, 5] []).1
        (rlKey "alice" "ws:recv") { count := 1, expiresAt := some 22 },
       none) ∧
    rate_limit {} 99 "bob" "calls:end" 2 10
        [(rlKey "bob" "calls:end", { count := 5, expiresAt := none })] =
      (alSet [(rlKey "bob" "calls:end", { count := 5, expiresAt := none })]
        (rlKey "bob" "calls:end") { count := 6, expiresAt := none },
       some 10) := by
  have h := C7_fixed_window_rate_limiter "alice" "ws:recv" 2 10 0 [3, 5] []
    rfl (by omega) (by decide)
  refine ⟨?_, ?_, ?_, ?_⟩
  · rw [h.1]
    rfl
  · have := h.2.1
    simpa using this
  · have := h.2.2.1 12 (by omega)
    simpa using this
  · have h2 := C7_fixed_window_rate_limiter "bob" "calls:end" 2 10 0 [] []
      rfl (by omega) (by simp)
    have := h2.2.2.2
      [(rlKey "bob" "calls:end", { count := 5, expiresAt := none })] 5 99
      (by decide) (by omega)
    simpa using this

/-! ### C8 — token gate rejections at socket admission -/

/-- Claim C8: socket admission rejects a credential whose declared purpose
is `refresh` even when its signature and expiry are otherwise valid, and
rejects a credential whose identifier belongs to the revocation set; in both
cases the peer sees only the policy-violation close code 1008. -/
theorem C8_token_gate_rejections (redisOk : Bool) (bl : List String)
    (blFails : Bool) (tok : Token) :
    (tok.typ = "refresh" → wsAdmit redisOk bl blFails tok = .closed 1008) ∧
    (∀ j, tok.jti = some j → j ≠ "" → j ∈ bl →
      wsAdmit redisOk bl blFails tok = .closed 1008) := by
  constructor
  · intro ht
    unfold wsAdmit validate_token_and_blacklist verify_token
    by_cases hr : redisOk
    · by_cases hd : tok.decodeOk <;> simp [hr, hd, ht]
    · simp [hr]
  · intro j hj hne hmem
    unfold wsAdmit validate_token_and_blacklist verify_token
    by_cases hr : redisOk
    · by_cases hd : tok.decodeOk
      · by_cases htyp : tok.typ = "access"
        · by_cases hbf : blFails <;>
            simp [hr, hd, htyp, hj, hne, hmem, hbf]
        · simp [hr, hd, htyp]
      · simp [hr, hd]
    · simp [hr]

def refreshTok : Token :=
  { decodeOk := true, typ := "refresh", jti := some "j1", sub := "alice" }

def revokedTok : Token :=
  { decodeOk := true, typ := "access", jti := some "j2", sub := "bob" }

theorem C8_witness :
    wsAdmit true ["j2"] false refreshTok = .closed 1008 ∧
    wsAdmit true ["j2"] false revokedTok = .closed 1008 :=
  ⟨(C8_token_gate_rejections true ["j2"] false refreshTok).1 rfl,
   (C8_token_gate_rejections true ["j2"] false revokedTok).2 "j2" rfl
     (by decide) (by decide)⟩

/-! ### C4 / C9 / C5 — call lifecycle -/

/-- The durable mutation `end_call` applies to a not-yet-ended row. -/
def endedRec (call : CallRec) (now : Int) : CallRec :=
  { call with
      status := "ended"
      ended_at := some now
      duration :=
        match call.answered_at with
        | some a => now - a
        | none => call.duration }

/-- The durable row `initiate_call` inserts. -/
def initiatedRec (newId caller receiver callType : String) (now : Int) :
    CallRec :=
  { id := newId
    caller_id := caller
    receiver_id := receiver
    call_type := callType
    status := "initiated"
    started_at := now
    answered_at := none
    ended_at := none
    duration := 0 }

theorem end_call_not_ended_spec (now : Int) (callId actor : String)
    (call : CallRec) (st : CallStore)
    (hdb : alGet st.db callId = some call)
    (hactor : actor = call.caller_id ∨ actor = call.receiver_id)
    (hended : call.status ≠ "ended") :
    (end_call okEnv now callId actor st).1.db =
      alSet st.db callId (endedRec call now) ∧
    (end_call okEnv now callId actor st).2 =
      .ok (endedRec call now).duration := by
  have hcond : ¬(actor ≠ call.caller_id ∧ actor ≠ call.receiver_id) := by
    rcases hactor with h | h <;> simp [h]
  constructor <;> simp [end_call, okEnv, hdb, hcond, hended, endedRec]

theorem end_call_ended_spec (now : Int) (callId actor : String)
    (call : CallRec) (st : CallStore)
    (hdb : alGet st.db callId = some call)
    (hactor : actor = call.caller_id ∨ actor = call.receiver_id)
    (hended : call.status = "ended") :
    (end_call okEnv now callId actor st).1.db = st.db ∧
    (end_call okEnv now callId actor st).2 = .ok call.duration := by
  have hcond : ¬(actor ≠ call.caller_id ∧ actor ≠ call.receiver_id) := by
    rcases hactor with h | h <;> simp [h]
  constructor <;> simp [end_call, okEnv, hdb, hcond, hended]

/-- Claim C4: for an existing not-yet-ended call and an actor who is the
caller or the receiver, `end` marks the row ended at `now` with
`duration = ended_at − answered_at` when the call was answered and 0
otherwise (the column default, which only `end` ever overwrites), returning
that duration; a second `end` by either party leaves the durable row
untouched and still returns success with the same duration. -/
theorem C4_end_call_duration_idempotent (now now2 : Int)
    (callId actor actor2 : String) (call : CallRec) (st : CallStore)
    (hdb : alGet st.db callId = some call)
    (hactor : actor = call.caller_id ∨ actor = call.receiver_id)
    (hactor2 : actor2 = call.caller_id ∨ actor2 = call.receiver_id)
    (hended : call.status ≠ "ended") (hdur : call.duration = 0) :
    ∃ call2 : CallRec,
      alGet (end_call okEnv now callId actor st).1.db callId = some call2 ∧
      call2.status = "ended" ∧
      call2.ended_at = some now ∧
      call2.duration = (match call.answered_at with
        | some a => now - a
        | none => 0) ∧
      (end_call okEnv now callId actor st).2 = .ok call2.duration ∧
      (end_call okEnv now2 callId actor2
          (end_call okEnv now callId actor st).1).1.db =
        (end_call okEnv now callId actor st).1.db ∧
      (end_call okEnv now2 callId actor2
          (end_call okEnv now callId actor st).1).2 = .ok call2.duration := by
  obtain ⟨hdb1, hret1⟩ :=
    end_call_not_ended_spec now callId actor call st hdb hactor hended
  have hget2 : alGet (end_call okEnv now callId actor st).1.db callId =
      some (endedRec call now) := by
    rw [hdb1]
    exact alGet_alSet _ _ _
  have hact2 : actor2 = (endedRec call now).caller_id ∨
      actor2 = (endedRec call now).receiver_id := hactor2
  obtain ⟨hdb2, hret2⟩ := end_call_ended_spec now2 callId actor2
    (endedRec call now) _ hget2 hact2 rfl
  refine ⟨endedRec call now, hget2, rfl, rfl, ?_, hret1, hdb2, hret2⟩
  cases ha : call.answered_at <;> simp [endedRec, ha, hdur]

def c4Call : CallRec :=
  { id := "c1"
    caller_id := "alice"
    receiver_id := "bob"
    call_type := "voice"
    status := "answered"
    started_at := 100
    answered_at := some 103
    ended_at := none
    duration := 0 }

def c4Store : CallStore :=
  { db := [("c1", c4Call)], cache := [], userCalls := [] }

theorem C4_witness :
    ∃ call2 : CallRec,
      alGet (end_call okEnv 108 "c1" "alice" c4Store).1.db "c1" =
        some call2 ∧
      call2.status = "ended" ∧
      call2.ended_at = some 108 ∧
      call2.duration = 5 ∧
      (end_call okEnv 108 "c1" "alice" c4Store).2 = .ok call2.duration ∧
      (end_call okEnv 200 "c1" "bob"
          (end_call okEnv 108 "c1" "alice" c4Store).1).1.db =
        (end_call okEnv 108 "c1" "alice" c4Store).1.db ∧
      (end_call okEnv 200 "c1" "bob"
          (end_call okEnv 108 "c1" "alice" c4Store).1).2 =
        .ok call2.duration := by
  obtain ⟨call2, h1, h2, h3, h4, h5, h6, h7⟩ :=
    C4_end_call_duration_idempotent 108 200 "c1" "alice" "bob" c4Call
      c4Store rfl (Or.inl rfl) (Or.inr rfl) (by decide) rfl
  exact ⟨call2, h1, h2, h3, by rw [h4]; rfl, h5, h6, h7⟩

/-- Claim C9: for an existing call, `answer` by anyone other than the
receiver is `Forbidden`; `answer` by the receiver on an ended call is
`Conflict`; otherwise the row becomes `answered` with
`answered_at = now` and the request succeeds. -/
theorem C9_answer_call_authorization (now : Int) (callId actor : String)
    (call : CallRec) (st : CallStore)
    (hdb : alGet st.db callId = some call) :
    (actor ≠ call.receiver_id →
      answer_call okEnv now callId actor st = (st, .error .forbidden)) ∧
    (actor = call.receiver_id → call.status = "ended" →
      answer_call okEnv now callId actor st = (st, .error .conflict)) ∧
    (actor = call.receiver_id → call.status ≠ "ended" →
      (answer_call okEnv now callId actor st).2 = .ok () ∧
      alGet (answer_call okEnv now callId actor st).1.db callId =
        some { call with status := "answered", answered_at := some now }) := by
  refine ⟨fun hne => ?_, fun heq hend => ?_, fun heq hnend => ⟨?_, ?_⟩⟩
  · simp [answer_call, okEnv, hdb, Ne.symm hne]
  · simp [answer_call, okEnv, hdb, heq, hend]
  · simp [answer_call, okEnv, hdb, heq, hnend]
  · simp [answer_call, okEnv, hdb, heq, hnend, alGet_alSet]

def c9Call : CallRec :=
  { id := "c2"
    caller_id := "alice"
    receiver_id := "bob"
    call_type := "video"
    status := "initiated"
    started_at := 10
    answered_at := none
    ended_at := none
    duration := 0 }

def c9Store : CallStore :=
  { db := [("c2", c9Call)], cache := [], userCalls := [] }

theorem C9_witness :
    answer_call okEnv 12 "c2" "mallory" c9Store =
      (c9Store, .error .forbidden) ∧
    (answer_call okEnv 12 "c2" "bob" c9Store).2 = .ok () ∧
    alGet (answer_call okEnv 12 "c2" "bob" c9Store).1.db "c2" =
      some { c9Call with status := "answered", answered_at := some 12 } := by
  have h := C9_answer_call_authorization 12 "c2" "mallory" c9Call c9Store rfl
  have h2 := C9_answer_call_authorization 12 "c2" "bob" c9Call c9Store rfl
  exact ⟨h.1 (by decide), (h2.2.2 rfl (by decide)).1, (h2.2.2 rfl (by decide)).2⟩

def c5Env : CallEnv := { cacheWriteFails := true }

/-- Claim C5 counterexample: with the durable row present and the ephemeral
write failing, `answer` commits the durable transition (the row reads back
as `answered`) yet the request fails — the cache failure is not swallowed,
contradicting the claim that it never causes the primary operation to
fail. -/
theorem C5_counterexample :
    (answer_call c5Env 12 "c2" "bob" c9Store).2 = .error .internal ∧
    alGet (answer_call c5Env 12 "c2" "bob" c9Store).1.db "c2" =
      some { c9Call with status := "answered", answered_at := some 12 } ∧
    (answer_call c5Env 12 "c2" "bob" c9Store).1.cache = [] :=
  ⟨rfl, rfl, rfl⟩

/-- Claim C5 (amended): every call-lifecycle write applies durable storage
first and refreshes the ephemeral snapshot second, and a failure of the
ephemeral layer never rolls back the committed durable transition — but it
is not swallowed: the exception propagates and the request fails with a
server-side error after the durable write, leaving the cache untouched. -/
theorem C5_durable_first_cache_failure_not_swallowed (env : CallEnv)
    (now : Int) (st : CallStore)
    (hrl : env.rlRetry = none) (huuid : env.uuidOk = true) :
    (∀ newId caller receiver callType, env.cacheWriteFails = true →
      (initiate_call env now newId caller receiver callType st).2 =
        .error .internal ∧
      alGet (initiate_call env now newId caller receiver callType st).1.db
          newId =
        some (initiatedRec newId caller receiver callType now) ∧
      (initiate_call env now newId caller receiver callType st).1.cache =
        st.cache) ∧
    (∀ callId actor call, alGet st.db callId = some call →
      actor = call.receiver_id → call.status ≠ "ended" →
      env.cacheReadFails = true ∨ env.cacheWriteFails = true →
      (answer_call env now callId actor st).2 = .error .internal ∧
      alGet (answer_call env now callId actor st).1.db callId =
        some { call with status := "answered", answered_at := some now } ∧
      (answer_call env now callId actor st).1.cache = st.cache) ∧
    (∀ callId actor call, alGet st.db callId = some call →
      actor = call.caller_id ∨ actor = call.receiver_id →
      call.status ≠ "ended" →
      env.cacheReadFails = true ∨ env.cacheWriteFails = true →
      (end_call env now callId actor st).2 = .error .internal ∧
      alGet (end_call env now callId actor st).1.db callId =
        some (endedRec call now) ∧
      (end_call env now callId actor st).1.cache = st.cache) := by
  refine ⟨fun newId caller receiver callType hw => ?_,
    fun callId actor call hdb heq hnend hfail => ?_,
    fun callId actor call hdb hactor hnend hfail => ?_⟩
  · constructor
    · simp [initiate_call, hrl, hw]
    · constructor <;> simp [initiate_call, hrl, hw, initiatedRec, alGet_alSet]
  · rcases hfail with hf | hf <;>
      by_cases hre : env.cacheReadFails <;>
        refine ⟨?_, ?_, ?_⟩ <;>
          simp_all [answer_call, hrl, huuid, hdb, heq, hnend, alGet_alSet]
  · rcases hactor with h | h <;> subst h <;>
      rcases hfail with hf | hf <;>
        by_cases hre : env.cacheReadFails <;>
          refine ⟨?_, ?_, ?_⟩ <;>
            simp_all [end_call, hrl, huuid, hdb, hnend, endedRec, alGet_alSet]

theorem C5_witness :
    (initiate_call c5Env 50 "c7" "alice" "bob" "voice" c9Store).2 =
      .error .internal ∧
    alGet (initiate_call c5Env 50 "c7" "alice" "bob" "voice" c9Store).1.db
      "c7" = some (initiatedRec "c7" "alice" "bob" "voice" 50) ∧
    (end_call c5Env 60 "c2" "alice" c9Store).2 = .error .internal ∧
    alGet (end_call c5Env 60 "c2" "alice" c9Store).1.db "c2" =
      some (endedRec c9Call 60) ∧
    (end_call c5Env 60 "c2" "alice" c9Store).1.cache = [] := by
  have h := C5_durable_first_cache_failure_not_swallowed c5Env 50 c9Store
    rfl rfl
  have h2 := C5_durable_first_cache_failure_not_swallowed c5Env 60 c9Store
    rfl rfl
  obtain ⟨hi1, hi2, hi3⟩ := h.1 "c7" "alice" "bob" "voice" rfl
  obtain ⟨he1, he2, he3⟩ := h2.2.2 "c2" "alice" c9Call rfl (Or.inl rfl)
    (by decide) (Or.inr rfl)
  exact ⟨hi1, hi2, he1, he2, he3⟩
